import Mathlib

/-!
Verification development for the Deribit option-flows heatmap pipeline
(`option_flows.py`).  The pure data transformations of the `HeatMap` class
are embedded as executable Lean definitions: the instrument-name decoding
and cleaning step (`clean_data`, lines 101-134), the paginated fetch loop
and its post-processing (`get_data`, lines 54-99), the pivot aggregation
(`plot_data`, lines 146-153) and the constructor (lines 14-22).  Network
transport is abstracted as a page-response function; timestamps are
millisecond integers; trade amounts are rationals.
-/

namespace OptionFlows

/-- One executed options trade, with the response fields the pipeline uses:
`trade_id` (opaque, here a natural number), `instrument_name`,
millisecond `timestamp`, `direction` string, positive `amount`, and the
optional `block_trade_id` (absent encodes a JSON null / missing field,
which pandas reads as NaN). -/
structure Trade where
  trade_id : Nat
  instrument_name : String
  timestamp : Int
  direction : String
  amount : ℚ
  block_trade_id : Option String
deriving DecidableEq

/-- Three-letter month tokens of the exchange's DDMMMYY maturity format. -/
def monthNum (s : String) : Option Nat :=
  if s = "JAN" then some 1
  else if s = "FEB" then some 2
  else if s = "MAR" then some 3
  else if s = "APR" then some 4
  else if s = "MAY" then some 5
  else if s = "JUN" then some 6
  else if s = "JUL" then some 7
  else if s = "AUG" then some 8
  else if s = "SEP" then some 9
  else if s = "OCT" then some 10
  else if s = "NOV" then some 11
  else if s = "DEC" then some 12
  else none

/-- Value of a list of decimal digit characters. -/
def digitsVal (cs : List Char) : Nat :=
  cs.foldl (fun acc c => acc * 10 + (c.toNat - 48)) 0

/-- Models `pd.to_datetime` (line 113) applied to the maturity component of
a Deribit instrument name, which is in DDMMMYY form: one or two day digits,
a three-letter month token, two year digits.  The result is the calendar
date encoded as the integer yyyymmdd (an encoding that preserves calendar
order).  The pandas call accepts further date formats beyond DDMMMYY, so
`none` here is narrower than a pandas parse failure; the concrete theorems
below therefore evaluate this parser only at DDMMMYY tokens, where it is
exact. -/
def parseDate (s : String) : Option Int :=
  let day := s.data.takeWhile Char.isDigit
  let rest := s.data.dropWhile Char.isDigit
  match rest with
  | [m1, m2, m3, y1, y2] =>
    if day.length = 1 ∨ day.length = 2 then
      if 1 ≤ digitsVal day ∧ digitsVal day ≤ 31 then
        if y1.isDigit ∧ y2.isDigit then
          (monthNum (String.mk [m1, m2, m3])).map fun m =>
            ((2000 + digitsVal [y1, y2]) * 10000 + m * 100 + digitsVal day : Int)
        else none
      else none
    else none
  | _ => none

/-- Models `.astype(float).astype(int)` on the strike component (line 114):
a decimal numeral string with optional sign and fractional part, truncated
toward zero.  The float cast also accepts exponent and similar forms this
model rejects, so `none` here is narrower than a pandas cast failure; the
concrete theorems below evaluate it only at plain decimal strings and at
strings no float syntax accepts (such as letters), where it is exact. -/
def parseStrike (s : String) : Option Int :=
  let signBody : Bool × List Char :=
    match s.data with
    | '-' :: rest => (true, rest)
    | cs => (false, cs)
  let ip := signBody.2.takeWhile Char.isDigit
  let rest := signBody.2.dropWhile Char.isDigit
  let ok : Bool :=
    match rest with
    | [] => !ip.isEmpty
    | '.' :: fr => fr.all Char.isDigit && (!ip.isEmpty || !fr.isEmpty)
    | _ => false
  if ok then some ((if signBody.1 then -1 else 1) * (digitsVal ip : Int)) else none

/-- Structured view of an instrument name (lines 109-110). -/
structure Decoded where
  underlying : String
  maturity : Int
  strike : Int
  op_type : String
deriving DecidableEq

/-- Splitting of a character list at every dash, with empty groups kept:
the behaviour of `str.split("-")` (line 109) expressed structurally. -/
def splitDash : List Char → List (List Char)
  | [] => [[]]
  | c :: rest =>
    if c = '-' then [] :: splitDash rest
    else
      match splitDash rest with
      | g :: gs => (c :: g) :: gs
      | [] => [[c]]

/-- Lines 109-114: split `instrument_name` on the dash into the four
columns underlying / maturity / strike / op_type, parse the maturity as a
date and the strike as a truncated numeral.  The option-type token is
carried through without validation, exactly as in the source.  This is a
per-row idealization of a frame-level computation: in pandas the split is
taken over the whole frame (line 110 raises only when the widest row does
not have four fields, and shorter rows are None-padded), and the date and
strike parsers above are narrower than `to_datetime`/`astype(float)`.  On
four-field names with DDMMMYY dates and plain decimal or letter strike
tokens — the only names the concrete theorems below evaluate — the model
agrees with the source in every frame context. -/
def decodeInstrument (s : String) : Option Decoded :=
  match (splitDash s.data).map String.mk with
  | [u, d, k, o] =>
    match parseDate d, parseStrike k with
    | some md, some ks => some { underlying := u, maturity := md, strike := ks, op_type := o }
    | _, _ => none
  | _ => none

/-- Line 120: `np.where(direction == 'sell', -1, 1)`. -/
def dirSign (d : String) : ℚ := if d = "sell" then -1 else 1

/-- Lines 124-125: a missing `block_trade_id` is filled with the sentinel
string NAN, and the `block_trades` indicator is 1 exactly when the value
differs from that sentinel. -/
def blockKept (t : Trade) : Bool := t.block_trade_id.getD "NAN" != "NAN"

/-- One row of the merged frame after lines 117-125, with the columns the
rest of `clean_data` reads. -/
structure Row where
  timestamp : Int
  maturity : Int
  strike : Int
  net_amount : ℚ
  block : Bool
deriving DecidableEq

/-- One row of the frame returned by `clean_data` (line 134). -/
structure CleanRow where
  timestamp : Int
  maturity : Int
  strike : Int
  net_amount : ℚ
deriving DecidableEq

/-- The merged row built from one trade (lines 117-125): decoded instrument
fields, `net_amount = direction_sign * amount`, block indicator. -/
def rowOf (t : Trade) : Option Row :=
  (decodeInstrument t.instrument_name).map fun d =>
    { timestamp := t.timestamp, maturity := d.maturity, strike := d.strike,
      net_amount := dirSign t.direction * t.amount, block := blockKept t }

/-- Line 134: the column selection kept in the returned frame. -/
def project (r : Row) : CleanRow :=
  { timestamp := r.timestamp, maturity := r.maturity, strike := r.strike,
    net_amount := r.net_amount }

/-- Row order used by `sort_values("maturity")` (line 128). -/
def rowLE : Row → Row → Prop := fun a b => a.maturity ≤ b.maturity

instance : DecidableRel rowLE := fun a b => Int.decLe a.maturity b.maturity

instance : IsTotal Row rowLE := ⟨fun a b => Int.le_total a.maturity b.maturity⟩

instance : IsTrans Row rowLE := ⟨fun _ _ _ h1 h2 => le_trans h1 h2⟩

/-- Body of `clean_data` on decodable input: build the merged rows, sort by
maturity (line 128), keep only block trades (line 131), select the output
columns (line 134). -/
def cleanOut (data : List Trade) : List CleanRow :=
  ((List.insertionSort rowLE (data.filterMap rowOf)).filter
    (fun r => r.block)).map project

/-- The method `HeatMap.clean_data` (lines 101-134): decode every
instrument name, build merged rows, sort by maturity, keep only block
trades, and select the output columns.  A decode failure is a failure of
the whole call (`none`), matching the pandas exceptions at lines 110,
113 and 114 on the name shapes where `decodeInstrument` is exact; the
per-row decode inherits the scope caveats noted at `decodeInstrument`. -/
def cleanData (data : List Trade) : Option (List CleanRow) :=
  if data.all (fun t => (decodeInstrument t.instrument_name).isSome) then
    some (cleanOut data)
  else none

/-- One cell of `pd.pivot_table(values net_amount, index maturity,
columns strike, aggfunc np.sum)` (lines 147-153). -/
def cellSum (rows : List CleanRow) (m k : Int) : ℚ :=
  ((rows.filter fun r => r.maturity == m && r.strike == k).map fun r => r.net_amount).sum

/-- The set of (maturity, strike) pairs observed in the cleaned rows: the
populated cells of the pivot table. -/
def cellKeys (rows : List CleanRow) : Finset (Int × Int) :=
  (rows.map fun r => (r.maturity, r.strike)).toFinset

/-- The aggregate matrix produced by `clean_data` followed by the pivot of
`plot_data`: the cell-value function together with the populated keys. -/
def matrixOf (l : List Trade) : Option ((Int × Int → ℚ) × Finset (Int × Int)) :=
  (cleanData l).map fun rows => (fun p => cellSum rows p.1 p.2, cellKeys rows)

/-- The `trades` part of a parsed page response body; each level is optional
because line 75 reads it with defaulting lookups. -/
structure RespResult where
  trades : Option (List Trade)
deriving DecidableEq

/-- A parsed page response body: the optional `result` object. -/
structure Resp where
  result : Option RespResult
deriving DecidableEq

/-- Line 75: `response.json().get('result', ...).get('trades', [])` — a
missing `result` or `trades` field silently becomes the empty list. -/
def extractTrades (r : Resp) : List Trade :=
  match r.result with
  | none => []
  | some rr => rr.trades.getD []

def msPerHour : Int := 3600000

/-- The fetch loop of `get_data` (lines 69-88).  `fetchPage` abstracts one
`requests.get` + JSON parse at a given anchor timestamp; `fuel` bounds the
number of iterations of the source's unbounded `while` (the source has no
such bound; `none` models a run that never leaves the loop).  Each
iteration anchors at `end` for the first page and at the previous page's
oldest timestamp afterwards, stops on an empty page, and otherwise appends
the page and moves the cursor to its last (oldest) trade's timestamp. -/
def getDataLoop (fetchPage : Int → Resp) (endT startT : Int) :
    Nat → Int → List (List Trade) → Option (List (List Trade))
  | 0, _, _ => none
  | fuel + 1, current, collected =>
    if startT ≤ current then
      match extractTrades (fetchPage (if collected.isEmpty then endT else current)) with
      | [] => some collected
      | t :: ts =>
        getDataLoop fetchPage endT startT fuel
          (((t :: ts).getLast (List.cons_ne_nil t ts)).timestamp) (collected ++ [t :: ts])
    else some collected

/-- Trade order used by `sort_values(by='timestamp')` (line 97). -/
def trLE : Trade → Trade → Prop := fun a b => a.timestamp ≤ b.timestamp

instance : DecidableRel trLE := fun a b => Int.decLe a.timestamp b.timestamp

instance : IsTotal Trade trLE := ⟨fun a b => Int.le_total a.timestamp b.timestamp⟩

instance : IsTrans Trade trLE := ⟨fun _ _ _ h1 h2 => le_trans h1 h2⟩

/-- Line 93: `drop_duplicates(subset='trade_id', keep="last")` — keep, in
original order, the last occurrence of each `trade_id`. -/
def dedupKeepLast (l : List Trade) : List Trade :=
  l.foldr (fun t acc => if acc.any (fun u => u.trade_id == t.trade_id) then acc else t :: acc) []

/-- Lines 90-97: concatenate the collected pages, drop duplicate trade ids
keeping the last occurrence, keep only trades inside the closed window,
and sort ascending by timestamp. -/
def postProcess (pages : List (List Trade)) (startT endT : Int) : List Trade :=
  List.insertionSort trLE
    ((dedupKeepLast pages.flatten).filter
      (fun t => decide (startT ≤ t.timestamp ∧ t.timestamp ≤ endT)))

/-- The method `HeatMap.get_data` (lines 54-99).  `now` is the millisecond clock read
at entry; the window start is `now` minus the lookback in hours.  A run
that exhausts its fuel never returned from the loop; a run whose loop
collected no page reaches `pd.concat([])` on line 91, which raises
`ValueError`; otherwise the merged pages are deduplicated, window-filtered
and sorted. -/
def getData (fetchPage : Int → Resp) (now lookback_hours : Int) (fuel : Nat) :
    Except String (List Trade) :=
  let startT := now - lookback_hours * msPerHour
  match getDataLoop fetchPage now startT fuel now [] with
  | none => Except.error "nontermination"
  | some [] => Except.error "ValueError"
  | some (p :: ps) => Except.ok (postProcess (p :: ps) startT now)

/-- The state stored by `HeatMap.__init__` (lines 14-22). -/
structure HeatMapState where
  asset : String
  lookback_hours : Int
deriving DecidableEq

/-- The constructor `HeatMap.__init__` (lines 14-22): upper-case the asset and store the
lookback unchanged.  The source performs no validation of either value.
Upper-casing is expressed per character so that it evaluates by kernel
reduction. -/
def heatMapInit (asset : String) (lookback_hours : Int) : HeatMapState :=
  { asset := String.mk (asset.data.map Char.toUpper), lookback_hours := lookback_hours }

/-- Signed size of one trade: `amount * (-1 if sell else +1)` (lines
120-121). -/
def signedAmount (t : Trade) : ℚ := dirSign t.direction * t.amount

/-- Whether a trade contributes to the pivot cell `(m, k)`: it must carry
the block indicator and its instrument must decode to maturity `m` and
strike `k`. -/
def hitsCell (t : Trade) (m k : Int) : Bool :=
  blockKept t &&
    match decodeInstrument t.instrument_name with
    | some d => d.maturity == m && d.strike == k
    | none => false

/-- Cell sum read off the merged rows before the column selection. -/
def rowCellSum (s : List Row) (m k : Int) : ℚ :=
  ((s.filter fun r => r.block && (r.maturity == m && r.strike == k)).map
    fun r => r.net_amount).sum

/-- The cleaned rows of exactly the trades whose filled `block_trade_id`
differs from the NAN sentinel. -/
def keptRows (l : List Trade) : List CleanRow :=
  (l.filter blockKept).filterMap fun t => (rowOf t).map project

/-- Replace a literal NAN string in `block_trade_id` by an absent field. -/
def sanitizeNan (t : Trade) : Trade :=
  if t.block_trade_id = some "NAN" then { t with block_trade_id := none } else t

/-- Concrete inputs used to instantiate the theorems below. -/
def tSell : Trade :=
  { trade_id := 1, instrument_name := "BTC-28JUN24-50000-C", timestamp := 1719500000000,
    direction := "sell", amount := 10, block_trade_id := some "b1" }

def tBuy : Trade :=
  { trade_id := 2, instrument_name := "BTC-28JUN24-50000-C", timestamp := 1719500001000,
    direction := "buy", amount := 4, block_trade_id := some "b1" }

def tNan : Trade :=
  { trade_id := 3, instrument_name := "BTC-28JUN24-50000-C", timestamp := 1719500002000,
    direction := "buy", amount := 5, block_trade_id := some "NAN" }

def tEmptyId : Trade :=
  { trade_id := 4, instrument_name := "BTC-28JUN24-50000-C", timestamp := 1719500003000,
    direction := "buy", amount := 10, block_trade_id := some "" }

def tBad : Trade :=
  { trade_id := 5, instrument_name := "BTC-28JUN24-C", timestamp := 1719500004000,
    direction := "buy", amount := 1, block_trade_id := some "b2" }

def tBadStrike : Trade :=
  { trade_id := 8, instrument_name := "BTC-28JUN24-XX-C", timestamp := 1719500006000,
    direction := "buy", amount := 2, block_trade_id := some "b3" }

def tOpX : Trade :=
  { trade_id := 9, instrument_name := "BTC-28JUN24-50000-X", timestamp := 1719500007000,
    direction := "buy", amount := 3, block_trade_id := some "b4" }

def tDupA : Trade :=
  { trade_id := 7, instrument_name := "BTC-28JUN24-50000-C", timestamp := 1719500000000,
    direction := "buy", amount := 1, block_trade_id := none }

def tDupB : Trade :=
  { trade_id := 7, instrument_name := "BTC-28JUN24-50000-C", timestamp := 1719500005000,
    direction := "buy", amount := 1, block_trade_id := none }

/-- Clock read used by the concrete fetch scenarios. -/
def nowMs : Int := 1719600000000

/-- A well-formed page body. -/
def okResp (l : List Trade) : Resp := { result := some { trades := some l } }

/-- Page source returning one trade on the first request and no trades on
any later request. -/
def fetchOne : Int → Resp :=
  fun a => if a = nowMs then okResp [tSell] else okResp []

/-- Page source returning one trade on the first request and a body with
no `result` field (a decode-level failure) on any later request. -/
def fetchThenMalformed : Int → Resp :=
  fun a => if a = nowMs then okResp [tSell] else { result := none }

/-- Page source that always answers with zero trades. -/
def fetchEmpty : Int → Resp := fun _ => okResp []

/-- The rows `clean_data` produces from the two-trade block example. -/
def exRows : List CleanRow :=
  [{ timestamp := 1719500000000, maturity := 20240628, strike := 50000,
     net_amount := dirSign "sell" * 10 },
   { timestamp := 1719500001000, maturity := 20240628, strike := 50000,
     net_amount := dirSign "buy" * 4 }]

/-- The single row `clean_data` produces from `tSell` alone. -/
def exRowSell : List CleanRow :=
  [{ timestamp := 1719500000000, maturity := 20240628, strike := 50000,
     net_amount := dirSign "sell" * 10 }]

/-- The single row `clean_data` produces from `tEmptyId` alone. -/
def exRowEmptyId : List CleanRow :=
  [{ timestamp := 1719500003000, maturity := 20240628, strike := 50000,
     net_amount := dirSign "buy" * 10 }]

/-- The single row `clean_data` produces from `tOpX` alone. -/
def exRowOpX : List CleanRow :=
  [{ timestamp := 1719500007000, maturity := 20240628, strike := 50000,
     net_amount := dirSign "buy" * 3 }]

theorem cleanData_eq_some {l : List Trade} {rows : List CleanRow}
    (h : cleanData l = some rows) : rows = cleanOut l := by
  unfold cleanData at h
  split at h
  · exact (Option.some.inj h).symm
  · cases h

theorem cellSum_project_filter (s : List Row) (m k : Int) :
    cellSum ((s.filter fun r => r.block).map project) m k = rowCellSum s m k := by
  unfold cellSum rowCellSum
  rw [List.filter_map, List.filter_filter, List.map_map]
  have hf : ∀ r : Row,
      (((fun r : CleanRow => r.maturity == m && r.strike == k) ∘ project) r && r.block) =
        (r.block && (r.maturity == m && r.strike == k)) := by
    intro r
    simp [project, Function.comp, Bool.and_comm]
  rw [List.filter_congr fun r _ => hf r]
  exact congrArg List.sum (List.map_congr_left fun r _ => rfl)

theorem rowCellSum_perm {s s' : List Row} (h : s.Perm s') (m k : Int) :
    rowCellSum s m k = rowCellSum s' m k :=
  ((h.filter _).map _).sum_eq

theorem rowCellSum_filterMap (l : List Trade) (m k : Int) :
    rowCellSum (l.filterMap rowOf) m k =
      ((l.filter fun t => hitsCell t m k).map signedAmount).sum := by
  induction l with
  | nil => rfl
  | cons t l ih =>
    rw [List.filterMap_cons, List.filter_cons]
    cases hdec : decodeInstrument t.instrument_name with
    | none =>
      have hh : hitsCell t m k = false := by
        unfold hitsCell
        rw [hdec, Bool.and_false]
      simp only [rowOf, hdec, Option.map_none', hh, Bool.false_eq_true, if_false]
      exact ih
    | some d =>
      have hrow : rowOf t = some
          { timestamp := t.timestamp, maturity := d.maturity, strike := d.strike,
            net_amount := dirSign t.direction * t.amount, block := blockKept t } := by
        rw [rowOf, hdec, Option.map_some']
      rw [hrow]
      unfold rowCellSum
      rw [List.filter_cons]
      have hh : hitsCell t m k = (blockKept t && (d.maturity == m && d.strike == k)) := by
        unfold hitsCell
        rw [hdec]
      by_cases hb : blockKept t = true
      · by_cases hk : (d.maturity == m && d.strike == k) = true
        · rw [hh, hb, hk]
          simp only [Bool.and_self, if_pos, List.map_cons, List.sum_cons]
          rw [← ih]
          rfl
        · have hk' : (d.maturity == m && d.strike == k) = false := by
            cases hkk : (d.maturity == m && d.strike == k)
            · rfl
            · exact absurd hkk hk
          rw [hh, hb, hk']
          simp only [Bool.true_and, Bool.and_false, Bool.false_and, if_neg, Bool.false_eq_true,
            not_false_eq_true]
          rw [← ih]
          rfl
      · have hb' : blockKept t = false := by
          cases hbb : blockKept t
          · rfl
          · exact absurd hbb hb
        rw [hh, hb']
        simp only [Bool.false_and, if_neg, Bool.false_eq_true, not_false_eq_true]
        rw [← ih]
        rfl

/-- Claim C1: for every trade list accepted by `clean_data`, each pivot
cell `(m, k)` holds the sum, over the block trades whose instrument
decodes to maturity `m` and strike `k`, of the signed amount
`amount * (-1 if direction is sell else +1)`. -/
theorem clean_data_signed_group_sum (l : List Trade) (rows : List CleanRow)
    (h : cleanData l = some rows) (m k : Int) :
    cellSum rows m k = ((l.filter fun t => hitsCell t m k).map signedAmount).sum := by
  rw [cleanData_eq_some h]
  unfold cleanOut
  rw [cellSum_project_filter, rowCellSum_perm (List.perm_insertionSort rowLE _) m k,
    rowCellSum_filterMap]

theorem exFilterHits :
    ([tSell, tBuy].filter fun t => hitsCell t 20240628 50000) = [tSell, tBuy] := rfl

theorem exSum :
    (([tSell, tBuy].filter fun t => hitsCell t 20240628 50000).map signedAmount).sum = -6 := by
  rw [exFilterHits]
  have hb : ("buy" = "sell") = False := eq_false (by decide)
  norm_num [signedAmount, dirSign, tSell, tBuy, hb]

/-- Witness for C1, at the two block trades of the specification's example:
the cell (2024-06-28, 50000) nets to -6. -/
theorem clean_data_signed_group_sum_witness : cellSum exRows 20240628 50000 = -6 :=
  (clean_data_signed_group_sum [tSell, tBuy] exRows rfl 20240628 50000).trans exSum

/-- Counterexample to C2 as stated: `tNan` carries the non-empty
`block_trade_id` string NAN, yet `clean_data` drops it, so the cleaned
output of the singleton list is empty — the aggregation does not retain
exactly the trades with a non-empty `block_trade_id`. -/
theorem block_filter_nonempty_cex :
    (tNan.block_trade_id ≠ none ∧ tNan.block_trade_id ≠ some "") ∧
      cleanData [tNan] = some [] :=
  ⟨⟨by simp [tNan], by simp [tNan]⟩, rfl⟩

theorem project_filter_eq_keptRows (l : List Trade) :
    (((l.filterMap rowOf).filter fun r => r.block).map project) = keptRows l := by
  induction l with
  | nil => rfl
  | cons t l ih =>
    unfold keptRows at *
    rw [List.filterMap_cons, List.filter_cons]
    cases hdec : decodeInstrument t.instrument_name with
    | none =>
      simp only [rowOf, hdec, Option.map_none']
      by_cases hb : blockKept t = true
      · rw [if_pos hb, List.filterMap_cons]
        simp only [rowOf, hdec, Option.map_none']
        exact ih
      · rw [if_neg hb]
        exact ih
    | some d =>
      have hrow : rowOf t = some
          { timestamp := t.timestamp, maturity := d.maturity, strike := d.strike,
            net_amount := dirSign t.direction * t.amount, block := blockKept t } := by
        rw [rowOf, hdec, Option.map_some']
      simp only [hrow]
      by_cases hb : blockKept t = true
      · rw [if_pos hb, List.filterMap_cons]
        simp only [hrow, Option.map_some', List.filter_cons, hb, if_pos, List.map_cons]
        rw [ih]
      · have hb' : blockKept t = false := by
          cases hbb : blockKept t
          · rfl
          · exact absurd hbb hb
        rw [if_neg hb]
        simp only [List.filter_cons, hb', Bool.false_eq_true, if_false]
        exact ih

/-- Claim C2 amended: `clean_data` retains exactly the trades whose filled
`block_trade_id` differs from the literal string NAN — present-and-equal-
to-NAN is dropped, present-and-empty is kept, absent is dropped. -/
theorem block_filter_sentinel (l : List Trade) (rows : List CleanRow)
    (h : cleanData l = some rows) : rows.Perm (keptRows l) := by
  rw [cleanData_eq_some h]
  unfold cleanOut
  rw [← project_filter_eq_keptRows]
  exact (((List.perm_insertionSort rowLE _).filter _).map _)

/-- Witness for the amended C2: on `[tSell, tNan]` the cleaned rows are
exactly the rows of the kept trades. -/
theorem block_filter_sentinel_witness : exRowSell.Perm (keptRows [tSell, tNan]) :=
  block_filter_sentinel [tSell, tNan] exRowSell rfl

/-- Counterexample to C5 as stated: adding the undecodable trade `tBad`
(3-field instrument name) to a decodable list makes the whole
`clean_data` call fail, instead of skipping the one record and keeping a
skip count. -/
theorem malformed_aborts_cex :
    cleanData [tSell, tBad] = none ∧ cleanData [tSell] = some exRowSell :=
  ⟨rfl, rfl⟩

/-- Claim C5 amended: `clean_data` never skips a single undecodable record
and keeps no skip count.  A record whose strike field is non-numeric
(`tBadStrike`, whose cast raises in any frame context) makes the whole
run fail — contrast with the same batch minus that record, which
succeeds — while a record with an unrecognized option-type token (`tOpX`)
is not detected as malformed at all: it is processed and retained. -/
theorem clean_data_abort_not_skip :
    cleanData [tSell, tBadStrike] = none ∧
      cleanData [tSell] = some exRowSell ∧
      cleanData [tOpX] = some exRowOpX :=
  ⟨rfl, rfl, rfl⟩

theorem rowOf_sanitizeNan (t : Trade) : rowOf (sanitizeNan t) = rowOf t := by
  unfold sanitizeNan
  split
  · rename_i hs
    unfold rowOf blockKept
    rw [hs]
    rfl
  · rfl

theorem instrument_sanitizeNan (t : Trade) :
    (sanitizeNan t).instrument_name = t.instrument_name := by
  unfold sanitizeNan
  split <;> rfl

/-- Claim C10: a present `block_trade_id` equal to the literal string NAN
is treated exactly as an absent one (replacing it by an absent field
changes nothing, and such a trade reaches no cell), while an empty-string
`block_trade_id` counts as a block trade and is retained. -/
theorem nan_sentinel_blocks :
    (∀ l : List Trade, cleanData (l.map sanitizeNan) = cleanData l) ∧
      blockKept tNan = false ∧ cleanData [tNan] = some [] ∧
      blockKept tEmptyId = true ∧ cleanData [tEmptyId] = some exRowEmptyId := by
  refine ⟨fun l => ?_, rfl, rfl, rfl, rfl⟩
  have hall : (l.map sanitizeNan).all (fun t => (decodeInstrument t.instrument_name).isSome) =
      l.all (fun t => (decodeInstrument t.instrument_name).isSome) := by
    rw [List.all_map]
    induction l with
    | nil => rfl
    | cons t l ih =>
      rw [List.all_cons, List.all_cons, ih, Function.comp_apply, instrument_sanitizeNan]
  have hfm : (l.map sanitizeNan).filterMap rowOf = l.filterMap rowOf := by
    clear hall
    rw [List.filterMap_map]
    induction l with
    | nil => rfl
    | cons t l ih =>
      rw [List.filterMap_cons, List.filterMap_cons, ih, Function.comp_apply, rowOf_sanitizeNan]
  unfold cleanData cleanOut
  rw [hall, hfm]

theorem dedupKeepLast_cons (t : Trade) (l : List Trade) :
    dedupKeepLast (t :: l) =
      if (dedupKeepLast l).any (fun u => u.trade_id == t.trade_id) then dedupKeepLast l
      else t :: dedupKeepLast l := rfl

theorem dedup_any (l : List Trade) (id : Nat) :
    (dedupKeepLast l).any (fun t => t.trade_id == id) =
      l.any (fun t => t.trade_id == id) := by
  induction l with
  | nil => rfl
  | cons t l ih =>
    rw [dedupKeepLast_cons, List.any_cons]
    by_cases ht : (dedupKeepLast l).any (fun u => u.trade_id == t.trade_id) = true
    · rw [if_pos ht, ih]
      by_cases hid : t.trade_id = id
      · subst hid
        have hl : l.any (fun u => u.trade_id == t.trade_id) = true := by
          rw [← ih]
          exact ht
        simp [hl]
      · have hf : (t.trade_id == id) = false := by
          simp [hid]
        rw [hf, Bool.false_or]
    · rw [if_neg ht, List.any_cons, ih]

theorem dedup_countP (l : List Trade) (id : Nat) :
    (dedupKeepLast l).countP (fun t => t.trade_id == id) =
      if l.any (fun t => t.trade_id == id) then 1 else 0 := by
  induction l with
  | nil => rfl
  | cons t l ih =>
    rw [dedupKeepLast_cons, List.any_cons]
    by_cases ht : (dedupKeepLast l).any (fun u => u.trade_id == t.trade_id) = true
    · rw [if_pos ht, ih]
      by_cases hid : t.trade_id = id
      · subst hid
        have hl : l.any (fun u => u.trade_id == t.trade_id) = true := by
          rw [← dedup_any]
          exact ht
        simp [hl]
      · have hf : (t.trade_id == id) = false := by
          simp [hid]
        rw [hf, Bool.false_or]
    · rw [if_neg ht, List.countP_cons, ih]
      by_cases hid : t.trade_id = id
      · subst hid
        have hl : l.any (fun u => u.trade_id == t.trade_id) = false := by
          rw [← dedup_any]
          exact Bool.eq_false_iff.mpr ht
        simp [hl]
      · have hf : (t.trade_id == id) = false := by
          simp [hid]
        simp [hf]

theorem dedup_filter_last (l : List Trade) (id : Nat) :
    (dedupKeepLast l).filter (fun t => t.trade_id == id) =
      ((l.filter (fun t => t.trade_id == id)).getLast?).toList := by
  induction l with
  | nil => rfl
  | cons t l ih =>
    rw [dedupKeepLast_cons, List.filter_cons]
    by_cases ht : (dedupKeepLast l).any (fun u => u.trade_id == t.trade_id) = true
    · rw [if_pos ht, ih]
      by_cases hid : t.trade_id = id
      · subst hid
        have hl : l.any (fun u => u.trade_id == t.trade_id) = true := by
          rw [← dedup_any]
          exact ht
        have hne : l.filter (fun u => u.trade_id == t.trade_id) ≠ [] := by
          intro hnil
          obtain ⟨x, hx, hpx⟩ := List.any_eq_true.mp hl
          exact absurd hnil (by
            intro hn
            exact (List.filter_eq_nil_iff.mp hn x hx) hpx)
        rw [if_pos (by simp)]
        cases hfil : l.filter (fun u => u.trade_id == t.trade_id) with
        | nil => exact absurd hfil hne
        | cons y ys => rw [List.getLast?_cons_cons]
      · have hf : (t.trade_id == id) = false := by
          simp [hid]
        rw [if_neg (by simp [hf])]
    · rw [if_neg ht]
      simp only [List.filter_cons]
      by_cases hid : t.trade_id = id
      · subst hid
        have hl : l.any (fun u => u.trade_id == t.trade_id) = false := by
          rw [← dedup_any]
          exact Bool.eq_false_iff.mpr ht
        have hfl : l.filter (fun u => u.trade_id == t.trade_id) = [] := by
          rw [List.filter_eq_nil_iff]
          intro a ha hpa
          exact (Bool.eq_false_iff.mp hl) (List.any_eq_true.mpr ⟨a, ha, hpa⟩)
        have hfdl : (dedupKeepLast l).filter (fun u => u.trade_id == t.trade_id) = [] := by
          rw [ih, hfl]
          rfl
        rw [if_pos (by simp), if_pos (by simp), hfdl, hfl]
        rfl
      · have hf : (t.trade_id == id) = false := by
          simp [hid]
        rw [if_neg (by simp [hf]), if_neg (by simp [hf]), ih]

/-- Claim C3: after merging the fetched pages, `drop_duplicates` on
`trade_id` keeping the last occurrence leaves each id present in the
merge exactly once, and the surviving record is the last-seen copy. -/
theorem merge_dedup_unique_last (pages : List (List Trade)) (id : Nat)
    (h : pages.flatten.any (fun t => t.trade_id == id) = true) :
    (dedupKeepLast pages.flatten).countP (fun t => t.trade_id == id) = 1 ∧
      (dedupKeepLast pages.flatten).filter (fun t => t.trade_id == id) =
        ((pages.flatten.filter (fun t => t.trade_id == id)).getLast?).toList :=
  ⟨by rw [dedup_countP, if_pos h], dedup_filter_last _ _⟩

/-- Witness for C3: two pages repeating trade id 7; the later copy
survives, exactly once. -/
theorem merge_dedup_unique_last_witness :
    (dedupKeepLast [[tDupA], [tDupB]].flatten).countP (fun t => t.trade_id == 7) = 1 ∧
      (dedupKeepLast [[tDupA], [tDupB]].flatten).filter (fun t => t.trade_id == 7) =
        (([[tDupA], [tDupB]].flatten.filter (fun t => t.trade_id == 7)).getLast?).toList :=
  merge_dedup_unique_last [[tDupA], [tDupB]] 7 rfl

theorem postProcess_mem {pages : List (List Trade)} {startT endT : Int} {t : Trade}
    (h : t ∈ postProcess pages startT endT) :
    startT ≤ t.timestamp ∧ t.timestamp ≤ endT := by
  unfold postProcess at h
  rw [List.mem_insertionSort] at h
  exact of_decide_eq_true (List.mem_filter.mp h).2

/-- Claim C4: whenever `get_data` returns a trade list, every returned
trade's timestamp lies in the closed window from `now` minus the lookback
to `now`, and the list is sorted ascending by timestamp. -/
theorem fetch_window_sorted (fetchPage : Int → Resp) (now lookback_hours : Int) (fuel : Nat)
    (l : List Trade) (h : getData fetchPage now lookback_hours fuel = Except.ok l) :
    (∀ t ∈ l, now - lookback_hours * msPerHour ≤ t.timestamp ∧ t.timestamp ≤ now) ∧
      List.Sorted trLE l := by
  simp only [getData] at h
  split at h
  · cases h
  · cases h
  · rename_i p ps heq
    have hl : postProcess (p :: ps) (now - lookback_hours * msPerHour) now = l :=
      Except.ok.inj h
    subst hl
    refine ⟨fun t ht => postProcess_mem ht, ?_⟩
    unfold postProcess
    exact List.sorted_insertionSort trLE _

/-- Witness for C4: a one-page fetch whose single trade lies in the
48-hour window. -/
theorem fetch_window_sorted_witness :
    (∀ t ∈ [tSell], nowMs - 48 * msPerHour ≤ t.timestamp ∧ t.timestamp ≤ nowMs) ∧
      List.Sorted trLE [tSell] :=
  fetch_window_sorted fetchOne nowMs 48 5 [tSell] rfl

/-- Counterexample to C6 as stated: the second page request of this run
answers with a body carrying no `result` field (a decode-level failure),
yet `get_data` finishes with `ok` — the failure is treated as an empty
page ending the history, not surfaced as a `RetrievalFailed` error. -/
theorem decode_failure_cex :
    (fetchThenMalformed 1719500000000).result = none ∧
      getData fetchThenMalformed nowMs 48 5 = Except.ok [tSell] :=
  ⟨rfl, rfl⟩

/-- Claim C6 amended: a page response whose body decodes without a
`result` object is read as the empty trade list and silently terminates
the fetch loop with the pages collected so far; no error is raised and no
anchor timestamp is reported. -/
theorem decode_failure_ends_loop (fetchPage : Int → Resp) (endT startT current : Int)
    (fuel : Nat) (collected : List (List Trade)) (hcur : startT ≤ current)
    (hresp : (fetchPage (if collected.isEmpty then endT else current)).result = none) :
    getDataLoop fetchPage endT startT (fuel + 1) current collected = some collected := by
  unfold getDataLoop
  rw [if_pos hcur]
  simp only [extractTrades, hresp]

/-- Witness for the amended C6: a result-less response ends the loop,
keeping the page already collected. -/
theorem decode_failure_ends_loop_witness :
    getDataLoop (fun _ => { result := none }) 0 0 1 0 [[tSell]] = some [[tSell]] :=
  decode_failure_ends_loop (fun _ => { result := none }) 0 0 0 0 [[tSell]] (le_refl 0) rfl

/-- Claim C7, against the code: when the very first page request returns
zero trades, the loop exits with no page collected and `get_data` reaches
`pd.concat([])` on line 91, which raises `ValueError` — it does not return
an empty sequence. -/
theorem empty_first_page_concat_error :
    extractTrades (fetchEmpty nowMs) = [] ∧
      getData fetchEmpty nowMs 24 5 = Except.error "ValueError" :=
  ⟨rfl, rfl⟩

theorem all_perm {l l' : List Trade} (h : l.Perm l') (p : Trade → Bool) :
    l.all p = l'.all p := by
  cases hh : l'.all p
  · rw [Bool.eq_false_iff]
    intro hc
    rw [List.all_eq_true] at hc
    have hcc : l'.all p = true := List.all_eq_true.mpr fun x hx => hc x (h.mem_iff.mpr hx)
    rw [hh] at hcc
    cases hcc
  · exact List.all_eq_true.mpr fun x hx => List.all_eq_true.mp hh x (h.mem_iff.mp hx)

theorem cleanOut_perm {l l' : List Trade} (h : l.Perm l') :
    (cleanOut l).Perm (cleanOut l') := by
  unfold cleanOut
  exact ((((List.perm_insertionSort rowLE _).trans (h.filterMap rowOf)).trans
    (List.perm_insertionSort rowLE _).symm).filter _).map project

theorem cellSum_perm {rows rows' : List CleanRow} (h : rows.Perm rows') (m k : Int) :
    cellSum rows m k = cellSum rows' m k :=
  ((h.filter _).map _).sum_eq

theorem cellKeys_perm {rows rows' : List CleanRow} (h : rows.Perm rows') :
    cellKeys rows = cellKeys rows' := by
  unfold cellKeys
  apply Finset.ext
  intro p
  rw [List.mem_toFinset, List.mem_toFinset]
  exact (h.map _).mem_iff

/-- Claim C8: aggregating any permutation of the input trade list yields
the same maturity-by-strike matrix (same cell values and same populated
cells). -/
theorem aggregate_perm_invariant (l l' : List Trade) (h : l.Perm l') :
    matrixOf l = matrixOf l' := by
  have hg : l.all (fun t => (decodeInstrument t.instrument_name).isSome) =
      l'.all (fun t => (decodeInstrument t.instrument_name).isSome) := all_perm h _
  have hp := cleanOut_perm h
  unfold matrixOf cleanData
  rw [hg]
  by_cases hguard : l'.all (fun t => (decodeInstrument t.instrument_name).isSome) = true
  · rw [if_pos hguard, if_pos hguard]
    simp only [Option.map_some', Option.some.injEq, Prod.mk.injEq]
    exact ⟨funext fun p => cellSum_perm hp p.1 p.2, cellKeys_perm hp⟩
  · rw [if_neg hguard, if_neg hguard]

/-- Witness for C8: swapping the two example block trades leaves the
matrix unchanged. -/
theorem aggregate_perm_invariant_witness :
    matrixOf [tBuy, tSell] = matrixOf [tSell, tBuy] :=
  aggregate_perm_invariant [tBuy, tSell] [tSell, tBuy] (List.Perm.swap tSell tBuy [])

/-- Counterexample to C9 as stated: the constructor accepts the empty
asset symbol, and with the non-positive lookback 0 a page is still
requested and `get_data` completes without any `InvalidParameter`
failure. -/
theorem no_param_validation_cex :
    heatMapInit "" 0 = { asset := "", lookback_hours := 0 } ∧
      getData fetchOne nowMs 0 5 = Except.ok [] :=
  ⟨rfl, rfl⟩

/-- Claim C9 amended: no boundary validation exists — `__init__` merely
upper-cases and stores whatever asset string and lookback it is given,
and fetching proceeds even with a non-positive lookback. -/
theorem no_param_validation :
    (∀ (a : String) (lb : Int),
        heatMapInit a lb = { asset := String.mk (a.data.map Char.toUpper), lookback_hours := lb }) ∧
      getData fetchOne nowMs 0 5 = Except.ok [] :=
  ⟨fun _ _ => rfl, rfl⟩

end OptionFlows
